import Mathlib

/-!
Verification of the CMC SortedList (`src/src/cmc/sortedlist.h`, with the
iterator variant in `src/src/cmc/cmc/sortedlist/ext/code.h`).

Embedding conventions:
* The macro parameters `PFX`/`SNAME`/`V` are instantiated as the prefix `sl_`,
  the structure `SList V`, and a type parameter `V` with `[Inhabited V]`;
  the C zero value `(V){ 0 }` is modelled as `default`.
* `size_t` is modelled as `Nat`; the one place where unsigned wraparound can
  actually occur (computing `x - 1`) is modelled explicitly modulo `2^64`
  by `size_t_sub_one`.
* The element buffer is a `List V` of length `capacity`.  Reading or writing
  the backing buffer outside its allocation is undefined behaviour in C, so
  every such access goes through `readIdx`/`writeIdx`, and an operation that
  performs an out-of-allocation access returns `none`.  Likewise,
  dereferencing a `NULL` function table returns `none`.
* `malloc`/`calloc`/`realloc` success is environment-determined, so the
  operations that allocate take explicit booleans saying whether the
  corresponding allocation call succeeds.
* The fields `f_val.str`, `f_val.free`, `f_val.hash` and `f_val.pri` of the
  value function table are never read by the operations modelled here (they
  only matter for printing, destruction and hashing), so they are omitted
  from the embedded function table.
* Loops are translated as structurally recursive functions on an explicit
  iteration count that equals the exact number of iterations the C loop
  performs; the quicksort recursion carries a fuel bounding the nesting
  depth of `while` iterations (each partition strictly shrinks the range, so
  `count + 2` suffices for every run that stays inside the allocation).
-/

namespace CMCSortedList

/-- Two to the 64th power, the modulus of `size_t` arithmetic. -/
def SIZE_MOD : Nat := 18446744073709551616

/-- The C expression `x - 1` at type `size_t`: wraps to `2^64 - 1` when `x = 0`. -/
def size_t_sub_one (x : Nat) : Nat := (x + (SIZE_MOD - 1)) % SIZE_MOD

/-- Error codes of `cmc_flags` (OK, ALLOC, EMPTY, NOT_FOUND, INVALID, OUT_OF_RANGE). -/
def cmc_flags_OK : Nat := 0

def cmc_flags_ALLOC : Nat := 1

def cmc_flags_EMPTY : Nat := 2

def cmc_flags_NOT_FOUND : Nat := 3

def cmc_flags_INVALID : Nat := 4

def cmc_flags_OUT_OF_RANGE : Nat := 5

/-- The value function table `struct SNAME##_ftab_val`.  `cmp` is the
comparator (returning a negative, zero or positive `Int` like the C `int`),
`cpy` is the optional copy function (a `NULL` pointer is `none`).  The
remaining fields (`str`, `free`, `hash`, `pri`) are not consulted by any
operation modelled here. -/
structure FtabVal (V : Type) where
  cmp : V → V → Int
  cpy : Option (V → V)

/-- The list structure `struct SNAME`: dynamic buffer, capacity, count, the
lazy-sorting dirty flag `is_sorted`, the status `flag`, and the (possibly
`NULL`) value function table.  The allocator and callback pointers carry no
pure content and allocation success is passed explicitly to the operations
that allocate. -/
structure SList (V : Type) where
  buffer : List V
  capacity : Nat
  count : Nat
  is_sorted : Bool
  flag : Nat
  f_val : Option (FtabVal V)

/-- The iterator structure `struct SNAME##_iter`: target list, cursor index
and the two boundary flags `start` and `end`. -/
structure SIter (V : Type) where
  target : SList V
  cursor : Nat
  start : Bool
  «end» : Bool

variable {V : Type} [Inhabited V]

/-- Read `b[i]`; `none` when the access is outside the allocation (UB in C). -/
def readIdx (b : List V) (i : Nat) : Option V :=
  if h : i < b.length then some (b.get ⟨i, h⟩) else none

/-- Write `b[i] := v`; `none` when the access is outside the allocation (UB in C). -/
def writeIdx (b : List V) (i : Nat) (v : V) : Option (List V) :=
  if i < b.length then some (b.set i v) else none

/-- Model of `PFX##_empty`. -/
def sl_empty (l : SList V) : Bool := l.count = 0

/-- Model of `PFX##_full`. -/
def sl_full (l : SList V) : Bool := l.capacity ≤ l.count

/-- Model of `PFX##_count`. -/
def sl_count (l : SList V) : Nat := l.count

/-- Model of `PFX##_capacity`. -/
def sl_capacity (l : SList V) : Nat := l.capacity

/-- Model of `PFX##_new`.  Mirrors the C checks in order: `capacity < 1`, `!f_val`,
`malloc` failure, `calloc` failure; `calloc` zero-initialises the buffer. -/
def sl_new (mallocOk callocOk : Bool) (capacity : Nat) (f_val : Option (FtabVal V)) :
    Option (SList V) :=
  if capacity < 1 then none
  else if f_val.isNone then none
  else if mallocOk = false then none
  else if callocOk = false then none
  else some { buffer := List.replicate capacity default, capacity := capacity, count := 0,
              is_sorted := false, flag := cmc_flags_OK, f_val := f_val }

/-- Model of `PFX##_new_custom`.  Mirrors the C checks in order: `capacity < 1`,
`malloc` failure, `calloc` failure.  Note that, unlike `PFX##_new`, the C
source never checks `f_val`, so a `NULL` function table is accepted. -/
def sl_new_custom (mallocOk callocOk : Bool) (capacity : Nat) (f_val : Option (FtabVal V)) :
    Option (SList V) :=
  if capacity < 1 then none
  else if mallocOk = false then none
  else if callocOk = false then none
  else some { buffer := List.replicate capacity default, capacity := capacity, count := 0,
              is_sorted := false, flag := cmc_flags_OK, f_val := f_val }

/-- Model of `PFX##_resize`.  `reallocOk` says whether the `realloc` call succeeds.
`realloc` keeps the first `min(old, new)` slots; the content of freshly
grown slots is unspecified in the source (`TODO zero out remaining slots`)
and is modelled as `default`. -/
def sl_resize (reallocOk : Bool) (l : SList V) (capacity : Nat) : Bool × SList V :=
  if l.capacity = capacity then (true, l)
  else if capacity < l.count then (false, l)
  else if reallocOk = false then (false, l)
  else (true, { l with
                buffer := l.buffer.take capacity ++
                  List.replicate (capacity - l.buffer.length) default,
                capacity := capacity })

/-- Model of `PFX##_insert`: doubles the capacity when full, then writes the element
at index `count` (`buffer[count++] = element`) and clears `is_sorted`.
Returns `none` only if the write lands outside the allocation (UB in C,
impossible while `count ≤ capacity = |buffer|`). -/
def sl_insert (reallocOk : Bool) (l : SList V) (element : V) : Option (Bool × SList V) :=
  match (if sl_full l then sl_resize reallocOk l (l.capacity * 2) else (true, l)) with
  | (false, l1) => some (false, l1)
  | (true, l1) =>
    match writeIdx l1.buffer l1.count element with
    | none => none
    | some b => some (true, { l1 with buffer := b, count := l1.count + 1, is_sorted := false })

/-- Model of `PFX##_remove`.  The C `memmove` copies `count - index` elements from
`buffer + index + 1`, so its source range reaches index `count`: it touches
one slot past the live region, which is outside the allocation exactly when
`count = capacity` (hence `none` in that case).  Afterwards the slot at the
decremented count is zeroed (`buffer[--count] = (V){ 0 }`). -/
def sl_remove (l : SList V) (index : Nat) : Option (Bool × SList V) :=
  if l.count ≤ index then some (false, l)
  else if l.buffer.length ≤ l.count then none
  else
    some (true, { l with
      buffer := (l.buffer.take index ++
          (l.buffer.drop (index + 1)).take (l.count - index) ++
          l.buffer.drop (l.count + 1)).set (l.count - 1) default,
      count := l.count - 1 })

end CMCSortedList

namespace CMCSortedList

variable {V : Type} [Inhabited V]

/-- The body of the partition `for` loop of `PFX##_impl_sort_quicksort`,
iterated `steps` times starting at index `i` with partition index `pindex`:
whenever `cmp(array[i], pivot) <= 0`, swap `array[i]` and `array[pindex]`
and advance `pindex`. -/
def partitionLoop (cmp : V → V → Int) (pivot : V) :
    Nat → List V → Nat → Nat → Option (Nat × List V)
  | 0, arr, _, pindex => some (pindex, arr)
  | steps + 1, arr, i, pindex =>
    match readIdx arr i with
    | none => none
    | some ai =>
      if cmp ai pivot ≤ 0 then
        match readIdx arr pindex with
        | none => none
        | some ap =>
          partitionLoop cmp pivot steps ((arr.set i ap).set pindex ai) (i + 1) (pindex + 1)
      else partitionLoop cmp pivot steps arr (i + 1) pindex

/-- The final pivot swap `array[pindex] <-> array[high]` of the partition. -/
def swapIdx (arr : List V) (i j : Nat) : Option (List V) :=
  match readIdx arr i, readIdx arr j with
  | some a, some b => some ((arr.set i b).set j a)
  | _, _ => none

/-- The inner `while` of `PFX##_impl_sort_insertion`: while `j > low` and
`cmp(array[j-1], tmp) > 0`, shift `array[j-1]` up to `array[j]` and
decrement `j`; finally write `array[j] = tmp`. -/
def insInner (cmp : V → V → Int) (tmp : V) (low : Nat) : Nat → List V → Option (List V)
  | 0, arr => writeIdx arr 0 tmp
  | j + 1, arr =>
    if low < j + 1 then
      match readIdx arr j with
      | none => none
      | some prev =>
        if 0 < cmp prev tmp then
          match writeIdx arr (j + 1) prev with
          | none => none
          | some arr2 => insInner cmp tmp low j arr2
        else writeIdx arr (j + 1) tmp
    else writeIdx arr (j + 1) tmp

/-- The outer `for` of `PFX##_impl_sort_insertion`, iterated `steps` times
from index `i`: pick `tmp = array[i]` and run the inner shifting loop. -/
def insOuter (cmp : V → V → Int) (low high : Nat) :
    Nat → Nat → List V → Option (List V)
  | 0, _, arr => some arr
  | steps + 1, i, arr =>
    if i ≤ high then
      match readIdx arr i with
      | none => none
      | some tmp =>
        match insInner cmp tmp low i arr with
        | none => none
        | some arr2 => insOuter cmp low high steps (i + 1) arr2
    else some arr

/-- Model of `PFX##_impl_sort_insertion`, sorting `array[low..high]` (inclusive). -/
def sl_impl_sort_insertion (cmp : V → V → Int) (arr : List V) (low high : Nat) :
    Option (List V) :=
  insOuter cmp low high (high - low) (low + 1) arr

/-- Model of `PFX##_impl_sort_quicksort`.  Hybrid quicksort with Lomuto partition and
the last element as pivot, exactly as in the source: partitions of fewer
than 10 elements go to insertion sort; otherwise it recurses on the smaller
side and continues the `while` loop on the larger side.  The recursive calls
`quicksort(array, cmp, low, pindex - 1)` and the update `high = pindex - 1`
use `size_t` subtraction, which wraps to `2^64 - 1` when `pindex = 0`
(`size_t_sub_one`).  `fuel` bounds the nesting of `while` iterations. -/
def quicksortFuel (cmp : V → V → Int) : Nat → List V → Nat → Nat → Option (List V)
  | 0, _, _, _ => none
  | fuel + 1, arr, low, high =>
    if low < high then
      if high - low < 10 then sl_impl_sort_insertion cmp arr low high
      else
        match readIdx arr high with
        | none => none
        | some pivot =>
          match partitionLoop cmp pivot (high - low) arr low low with
          | none => none
          | some (pindex, arr1) =>
            match swapIdx arr1 pindex high with
            | none => none
            | some arr2 =>
              if pindex - low < high - pindex then
                match quicksortFuel cmp fuel arr2 low (size_t_sub_one pindex) with
                | none => none
                | some arr3 => quicksortFuel cmp fuel arr3 (pindex + 1) high
              else
                match quicksortFuel cmp fuel arr2 (pindex + 1) high with
                | none => none
                | some arr3 => quicksortFuel cmp fuel arr3 low (size_t_sub_one pindex)
    else some arr

/-- Model of `PFX##_sort`: lazily sorts `buffer[0 .. count-1]` when the list is not
already sorted and has more than one element, then sets `is_sorted`.
Dereferencing a `NULL` `f_val` for the comparator is UB, hence `none`. -/
def sl_sort (l : SList V) : Option (SList V) :=
  if l.is_sorted = false ∧ 1 < l.count then
    match l.f_val with
    | none => none
    | some f =>
      match quicksortFuel f.cmp (l.count + 2) l.buffer 0 (l.count - 1) with
      | none => none
      | some b => some { l with buffer := b, is_sorted := true }
  else some l

end CMCSortedList

namespace CMCSortedList

variable {V : Type} [Inhabited V]

/-- The `while (L < R)` loop of `PFX##_impl_binary_search_first`: narrow on
`M = L + (R - L) / 2`, moving `L` past `M` when `cmp(buffer[M], value) < 0`
and `R` down to `M` otherwise.  `fuel` equals the interval width at the
call site, which bounds the number of iterations. -/
def bsLoopFirst (cmp : V → V → Int) (value : V) (buffer : List V) :
    Nat → Nat → Nat → Option Nat
  | 0, L, R => if L < R then none else some L
  | fuel + 1, L, R =>
    if L < R then
      match readIdx buffer (L + (R - L) / 2) with
      | none => none
      | some bm =>
        if cmp bm value < 0 then bsLoopFirst cmp value buffer fuel (L + (R - L) / 2 + 1) R
        else bsLoopFirst cmp value buffer fuel L (L + (R - L) / 2)
    else some L

/-- The `while (L < R)` loop of `PFX##_impl_binary_search_last`: move `R`
down to `M` when `cmp(buffer[M], value) > 0` and `L` past `M` otherwise. -/
def bsLoopLast (cmp : V → V → Int) (value : V) (buffer : List V) :
    Nat → Nat → Nat → Option Nat
  | 0, L, R => if L < R then none else some L
  | fuel + 1, L, R =>
    if L < R then
      match readIdx buffer (L + (R - L) / 2) with
      | none => none
      | some bm =>
        if 0 < cmp bm value then bsLoopLast cmp value buffer fuel L (L + (R - L) / 2)
        else bsLoopLast cmp value buffer fuel (L + (R - L) / 2 + 1) R
    else some L

/-- Model of `PFX##_impl_binary_search_first`.  On an empty list the source returns
the constant `1`.  Otherwise it runs the narrowing loop on `[0, count)` and
then reads `buffer[L]` — an access at index `count` (one past the live
region, outside the allocation when the list is full) whenever the loop
ends with `L = count`. -/
def sl_impl_binary_search_first (l : SList V) (value : V) : Option Nat :=
  match l.f_val with
  | none => none
  | some f =>
    if sl_empty l then some 1
    else
      match bsLoopFirst f.cmp value l.buffer l.count 0 l.count with
      | none => none
      | some L =>
        match readIdx l.buffer L with
        | none => none
        | some bl => if f.cmp bl value = 0 then some L else some l.count

/-- Model of `PFX##_impl_binary_search_last`.  On an empty list the source returns
the constant `1`.  Otherwise it runs the narrowing loop and then reads
`buffer[L - 1]` with `size_t` subtraction: when the loop ends with `L = 0`
the index wraps to `2^64 - 1`, far outside the allocation. -/
def sl_impl_binary_search_last (l : SList V) (value : V) : Option Nat :=
  match l.f_val with
  | none => none
  | some f =>
    if sl_empty l then some 1
    else
      match bsLoopLast f.cmp value l.buffer l.count 0 l.count with
      | none => none
      | some L =>
        match readIdx l.buffer (size_t_sub_one L) with
        | none => none
        | some bl => if f.cmp bl value = 0 then some (size_t_sub_one L) else some l.count

/-- Model of `PFX##_indexof`: sorts (a mutation of the list, hence the returned
updated list) and dispatches on `from_start` to the two binary searches. -/
def sl_indexof (l : SList V) (element : V) (from_start : Bool) : Option (Nat × SList V) :=
  match sl_sort l with
  | none => none
  | some l1 =>
    if from_start then (sl_impl_binary_search_first l1 element).map (fun i => (i, l1))
    else (sl_impl_binary_search_last l1 element).map (fun i => (i, l1))

/-- Model of `PFX##_contains`: `false` on an empty list, otherwise sort and test
whether the first-occurrence search lands below `count`. -/
def sl_contains (l : SList V) (element : V) : Option (Bool × SList V) :=
  if sl_empty l then some (false, l)
  else
    match sl_sort l with
    | none => none
    | some l1 =>
      match sl_impl_binary_search_first l1 element with
      | none => none
      | some i => some (decide (i < l1.count), l1)

/-- Model of `PFX##_get`: index out of range returns the zero value `(V){ 0 }` with
the list untouched (in particular the `flag` field); otherwise sort and
read `buffer[index]`. -/
def sl_get (l : SList V) (index : Nat) : Option (V × SList V) :=
  if l.count ≤ index then some (default, l)
  else
    match sl_sort l with
    | none => none
    | some l1 =>
      match readIdx l1.buffer index with
      | none => none
      | some v => some (v, l1)

/-- The comparison `for` loop of `PFX##_equals`, iterated `steps` times from
index `i`: any pairwise comparison that is non-zero returns `false`; when
the loop completes, the literal source returns `false` as well. -/
def sl_equals_loop (fOpt : Option (FtabVal V)) (b1 b2 : List V) :
    Nat → Nat → Option Bool
  | 0, _ => some false
  | steps + 1, i =>
    match fOpt with
    | none => none
    | some f =>
      match readIdx b1 i, readIdx b2 i with
      | some x, some y =>
        if f.cmp x y ≠ 0 then some false else sl_equals_loop fOpt b1 b2 steps (i + 1)
      | _, _ => none

/-- Model of `PFX##_equals`: compare counts, sort both operands, then compare the
buffers pairwise with `f_val->cmp` of the first list.  Faithful to the
source, the fall-through after a fully matching loop returns `false`. -/
def sl_equals (l1 l2 : SList V) : Option Bool :=
  if l1.count ≠ l2.count then some false
  else
    match sl_sort l1 with
    | none => none
    | some a =>
      match sl_sort l2 with
      | none => none
      | some b => sl_equals_loop a.f_val a.buffer b.buffer a.count 0

/-- Model of `PFX##_copy_of`: allocate a list of the same capacity and function table
via `PFX##_new_custom`, then duplicate the first `count` slots — through
`f_val->cpy` when present, by `memcpy` otherwise — and copy the count.
Reading `f_val->cpy` dereferences `f_val`. -/
def sl_copy_of (mallocOk callocOk : Bool) (l : SList V) : Option (SList V) :=
  match sl_new_custom mallocOk callocOk l.capacity l.f_val with
  | none => none
  | some result =>
    match l.f_val with
    | none => none
    | some f =>
      match f.cpy with
      | some cpy =>
        some { result with
               buffer := (l.buffer.take l.count).map cpy ++ result.buffer.drop l.count,
               count := l.count }
      | none =>
        some { result with
               buffer := l.buffer.take l.count ++ result.buffer.drop l.count,
               count := l.count }

end CMCSortedList

namespace CMCSortedList

variable {V : Type} [Inhabited V]

/-- Model of `PFX##_iter_init`: sorts the target, then starts at cursor 0 with the
`start` flag set and the `end` flag set exactly when the target is empty. -/
def sl_iter_init (target : SList V) : Option (SIter V) :=
  (sl_sort target).map fun t =>
    { target := t, cursor := 0, start := true, «end» := sl_empty t }

/-- Model of `PFX##_iter_start` (`_iter_at_start` in the ext variant). -/
def sl_iter_at_start (iter : SIter V) : Bool :=
  sl_empty iter.target || iter.start

/-- Model of `PFX##_iter_end` (`_iter_at_end` in the ext variant). -/
def sl_iter_at_end (iter : SIter V) : Bool :=
  sl_empty iter.target || iter.«end»

/-- Model of `PFX##_iter_next` (identical in both source files): refuse when the
`end` flag is set; when the cursor sits on the last index, set the `end`
flag and refuse; otherwise clear `start` (on a non-empty target) and step. -/
def sl_iter_next (iter : SIter V) : Bool × SIter V :=
  if iter.«end» then (false, iter)
  else if iter.cursor + 1 = iter.target.count then (false, { iter with «end» := true })
  else (true, { iter with start := sl_empty iter.target, cursor := iter.cursor + 1 })

/-- Model of `PFX##_iter_prev` (identical in both source files): symmetric to
`sl_iter_next` at the front boundary. -/
def sl_iter_prev (iter : SIter V) : Bool × SIter V :=
  if iter.start then (false, iter)
  else if iter.cursor = 0 then (false, { iter with start := true })
  else (true, { iter with «end» := sl_empty iter.target, cursor := iter.cursor - 1 })

/-- Model of `PFX##_iter_advance` (identical in both source files): the same two
boundary checks as `sl_iter_next`, then refuse when `steps = 0` or
`cursor + steps >= count`; otherwise jump by `steps`. -/
def sl_iter_advance (iter : SIter V) (steps : Nat) : Bool × SIter V :=
  if iter.«end» then (false, iter)
  else if iter.cursor + 1 = iter.target.count then (false, { iter with «end» := true })
  else if steps = 0 ∨ iter.target.count ≤ iter.cursor + steps then (false, iter)
  else (true, { iter with start := sl_empty iter.target, cursor := iter.cursor + steps })

/-- Model of `PFX##_iter_rewind` (identical in both source files): the same two
boundary checks as `sl_iter_prev`, then refuse when `steps = 0` or
`cursor < steps`; otherwise jump back by `steps`. -/
def sl_iter_rewind (iter : SIter V) (steps : Nat) : Bool × SIter V :=
  if iter.start then (false, iter)
  else if iter.cursor = 0 then (false, { iter with start := true })
  else if steps = 0 ∨ iter.cursor < steps then (false, iter)
  else (true, { iter with «end» := sl_empty iter.target, cursor := iter.cursor - steps })

/-- Model of `PFX##_iter_go_to`: refuse when `index >= count`, otherwise compose a
rewind or an advance (or succeed in place). -/
def sl_iter_go_to (iter : SIter V) (index : Nat) : Bool × SIter V :=
  if iter.target.count ≤ index then (false, iter)
  else if index < iter.cursor then sl_iter_rewind iter (iter.cursor - index)
  else if iter.cursor < index then sl_iter_advance iter (index - iter.cursor)
  else (true, iter)

/-- Model of `PFX##_iter_value`: the zero value on an empty target, otherwise
`buffer[cursor]` (outside the live region when the cursor is stale). -/
def sl_iter_value (iter : SIter V) : Option V :=
  if sl_empty iter.target then some default
  else readIdx iter.target.buffer iter.cursor

/-- Model of `PFX##_iter_index`. -/
def sl_iter_index (iter : SIter V) : Nat := iter.cursor

end CMCSortedList

namespace CMCSortedList

variable {V : Type} [Inhabited V]

/-- A sequence of `PFX##_insert` calls (with every `realloc` succeeding),
propagating a failed or undefined insert as `none`. -/
def insertAll (l : SList V) : List V → Option (SList V)
  | [] => some l
  | x :: xs =>
    match sl_insert true l x with
    | some (true, l1) => insertAll l1 xs
    | _ => none

/-- Integer comparator in the usual C style: negative, zero or positive. -/
def intCmp (a b : Int) : Int := if a < b then -1 else if b < a then 1 else 0

/-- A concrete value function table for `Int` with no copy function. -/
def fInt : FtabVal Int := { cmp := intCmp, cpy := none }

/-- The freshly constructed `Int` list of capacity 1, i.e. the result of
`sl_new true true 1 (some fInt)`. -/
def l0Int : SList Int :=
  { buffer := [0], capacity := 1, count := 0, is_sorted := false,
    flag := cmc_flags_OK, f_val := some fInt }

/-- A one-element list holding `7`. -/
def list7 : SList Int :=
  { buffer := [7], capacity := 1, count := 1, is_sorted := true,
    flag := cmc_flags_OK, f_val := some fInt }

/-- The value `sl_copy_of true true list7` computes to. -/
def copy7 : SList Int :=
  { buffer := [7], capacity := 1, count := 1, is_sorted := false,
    flag := cmc_flags_OK, f_val := some fInt }

/-- Eleven elements whose minimum sits in the pivot (last) position: the
Lomuto partition leaves `pindex = 0` and the recursion on
`(low, pindex - 1)` underflows. -/
def badList : SList Int :=
  { buffer := [2, 2, 2, 2, 2, 2, 2, 2, 2, 2, 1], capacity := 11, count := 11,
    is_sorted := false, flag := cmc_flags_OK, f_val := some fInt }

/-- A one-element list holding `5`: searching a smaller value from the back
drives the last-occurrence binary search to `L = 0`. -/
def list5 : SList Int :=
  { buffer := [5], capacity := 1, count := 1, is_sorted := true,
    flag := cmc_flags_OK, f_val := some fInt }

/-- A full one-element list holding `1`: searching a larger value drives the
first-occurrence binary search to read `buffer[count]` with
`count = capacity`. -/
def list1full : SList Int :=
  { buffer := [1], capacity := 1, count := 1, is_sorted := true,
    flag := cmc_flags_OK, f_val := some fInt }

/-- A full one-element list holding `7` (for `sl_remove`). -/
def full7 : SList Int :=
  { buffer := [7], capacity := 1, count := 1, is_sorted := false,
    flag := cmc_flags_OK, f_val := some fInt }

/-- A sorted three-element target list for the iterator instances. -/
def list3 : SList Int :=
  { buffer := [1, 2, 3], capacity := 3, count := 3, is_sorted := true,
    flag := cmc_flags_OK, f_val := some fInt }

/-- An iterator on `list3` at the first index. -/
def it3 : SIter Int := { target := list3, cursor := 0, start := true, «end» := false }

/-- An iterator on `list3` at the last index with the `end` flag set. -/
def it3r : SIter Int := { target := list3, cursor := 2, start := false, «end» := true }

/-- An iterator on `list3` at the last index with both flags clear. -/
def itLast : SIter Int := { target := list3, cursor := 2, start := false, «end» := false }

/-- An iterator on `list3` at index 0 with both flags clear. -/
def itFirst : SIter Int := { target := list3, cursor := 0, start := false, «end» := false }

/-- An empty `Int` list whose status flag is `OK`. -/
def egC9 : SList Int :=
  { buffer := [0], capacity := 1, count := 0, is_sorted := false,
    flag := cmc_flags_OK, f_val := some fInt }

end CMCSortedList

namespace CMCSortedList

set_option linter.unusedSectionVars false

variable {V : Type} [Inhabited V]

/-- Setting index `n` and taking `n + 1` elements appends the new element to
the length-`n` prefix. -/
lemma take_set_succ (b : List V) (n : Nat) (x : V) (h : n < b.length) :
    (b.set n x).take (n + 1) = b.take n ++ [x] := by
  rw [List.set_eq_take_cons_drop x h, List.take_append_eq_append_take]
  have hlen : (b.take n).length = n := by
    rw [List.length_take]; omega
  rw [List.take_take, hlen]
  have hmin : min (n + 1) n = n := by omega
  have hsub : n + 1 - n = 1 := by omega
  rw [hmin, hsub]
  rfl

/-- One successful `sl_insert` (with `realloc` succeeding): the element lands
at index `count`, the count grows by one, the capacity doubles exactly when
the list was full, and `is_sorted` is cleared. -/
lemma sl_insert_step (l : SList V) (x : V) (h1 : 1 ≤ l.capacity)
    (h2 : l.count ≤ l.capacity) (h3 : l.buffer.length = l.capacity) :
    ∃ l1, sl_insert true l x = some (true, l1)
      ∧ l1.count = l.count + 1
      ∧ l1.capacity = (if l.count = l.capacity then l.capacity * 2 else l.capacity)
      ∧ l1.buffer.length = l1.capacity
      ∧ l1.buffer.take (l.count + 1) = l.buffer.take l.count ++ [x]
      ∧ l1.is_sorted = false := by
  by_cases hfull : l.count = l.capacity
  · have hsf : sl_full l = true := by
      simp only [sl_full, decide_eq_true_eq]
      omega
    have hres : sl_resize true l (l.capacity * 2) =
        (true, { l with
          buffer := l.buffer.take (l.capacity * 2) ++
            List.replicate (l.capacity * 2 - l.buffer.length) default,
          capacity := l.capacity * 2 }) := by
      unfold sl_resize
      rw [if_neg (by omega), if_neg (by omega), if_neg (by simp)]
    have hbuf : l.buffer.take (l.capacity * 2) ++
        List.replicate (l.capacity * 2 - l.buffer.length) default =
        l.buffer ++ List.replicate l.capacity default := by
      rw [List.take_of_length_le (by omega), h3]
      congr 2
      omega
    have hlen2 : (l.buffer ++ List.replicate l.capacity default).length = l.capacity * 2 := by
      simp [h3]; omega
    have hins : sl_insert true l x = some (true, { l with
        buffer := (l.buffer ++ List.replicate l.capacity default).set l.count x,
        capacity := l.capacity * 2, count := l.count + 1, is_sorted := false }) := by
      unfold sl_insert
      rw [hsf]
      simp only [if_true]
      rw [hres]
      simp only [hbuf]
      unfold writeIdx
      rw [if_pos (by rw [hlen2]; omega)]
    refine ⟨_, hins, rfl, by simp [hfull], ?_, ?_, rfl⟩
    · simp only [List.length_set, hlen2]
    · have hlt : l.count < (l.buffer ++ List.replicate l.capacity default).length := by
        rw [hlen2]; omega
      simp only
      rw [take_set_succ _ _ _ hlt]
      congr 1
      rw [List.take_append_eq_append_take, List.take_of_length_le (by omega)]
      have h0 : l.count - l.buffer.length = 0 := by omega
      rw [h0]
      simp
  · have hsf : sl_full l = false := by
      simp only [sl_full]
      simp only [decide_eq_false_iff_not]
      omega
    have hins : sl_insert true l x = some (true, { l with
        buffer := l.buffer.set l.count x, count := l.count + 1, is_sorted := false }) := by
      unfold sl_insert
      rw [hsf]
      simp only [Bool.false_eq_true, if_false]
      unfold writeIdx
      rw [if_pos (by omega)]
    refine ⟨_, hins, rfl, by simp [hfull], ?_, ?_, rfl⟩
    · simp only [List.length_set, h3]
    · exact take_set_succ _ _ _ (by omega)

/-- Invariant of a run of successful inserts: the count grows by the number
of inserted elements, the capacity is the least doubling of the starting
capacity that accommodates them, and the live prefix is the old prefix
followed by the inserted elements in order. -/
lemma insertAll_spec (xs : List V) :
    ∀ l : SList V, 1 ≤ l.capacity → l.count ≤ l.capacity → l.buffer.length = l.capacity →
    ∃ lN, insertAll l xs = some lN
      ∧ lN.count = l.count + xs.length
      ∧ (∃ k, lN.capacity = l.capacity * 2 ^ k)
      ∧ l.count + xs.length ≤ lN.capacity
      ∧ (∀ j, l.count + xs.length ≤ l.capacity * 2 ^ j → lN.capacity ≤ l.capacity * 2 ^ j)
      ∧ lN.buffer.length = lN.capacity
      ∧ lN.buffer.take lN.count = l.buffer.take l.count ++ xs
      ∧ (xs = [] → lN = l)
      ∧ (xs ≠ [] → lN.is_sorted = false) := by
  induction xs with
  | nil =>
    intro l h1 h2 h3
    refine ⟨l, rfl, by simp, ⟨0, by simp⟩, by simpa using h2, ?_, h3, by simp, fun _ => rfl,
      fun h => absurd rfl h⟩
    intro j _
    calc l.capacity = l.capacity * 1 := (Nat.mul_one _).symm
      _ ≤ l.capacity * 2 ^ j := Nat.mul_le_mul_left _ (Nat.one_le_two_pow)
  | cons x xs ih =>
    intro l h1 h2 h3
    obtain ⟨l1, he, hc, hcap, hlen, htake, hsort⟩ := sl_insert_step l x h1 h2 h3
    have h1a : 1 ≤ l1.capacity := by rw [hcap]; split <;> omega
    have h2a : l1.count ≤ l1.capacity := by rw [hc, hcap]; split <;> omega
    obtain ⟨lN, heN, hcN, ⟨k, hkN⟩, hleN, hminN, hlenN, htakeN, hnilN, hsortN⟩ :=
      ih l1 h1a h2a hlen
    have hall : insertAll l (x :: xs) = some lN := by
      unfold insertAll
      rw [he]
      exact heN
    refine ⟨lN, hall, ?_, ?_, ?_, ?_, hlenN, ?_, by simp, ?_⟩
    · rw [hcN, hc]
      simp only [List.length_cons]
      omega
    · by_cases hf : l.count = l.capacity
      · refine ⟨k + 1, ?_⟩
        rw [hkN, hcap, if_pos hf]
        ring
      · exact ⟨k, by rw [hkN, hcap, if_neg hf]⟩
    · have hle1 : l1.count + xs.length ≤ lN.capacity := hleN
      rw [hc] at hle1
      simp only [List.length_cons]
      omega
    · intro j hj
      simp only [List.length_cons] at hj
      by_cases hf : l.count = l.capacity
      · rcases j with _ | j
        · exfalso
          simp only [pow_zero, Nat.mul_one] at hj
          omega
        · have hj2 : l1.count + xs.length ≤ l1.capacity * 2 ^ j := by
            rw [hc, hcap, if_pos hf]
            rw [pow_succ] at hj
            calc l.count + 1 + xs.length = l.count + (xs.length + 1) := by omega
              _ ≤ l.capacity * (2 ^ j * 2) := hj
              _ = l.capacity * 2 * 2 ^ j := by ring
          have hle2 := hminN j hj2
          rw [hcap, if_pos hf] at hle2
          calc lN.capacity ≤ l.capacity * 2 * 2 ^ j := hle2
            _ = l.capacity * 2 ^ (j + 1) := by ring
      · have hj2 : l1.count + xs.length ≤ l1.capacity * 2 ^ j := by
          rw [hc, hcap, if_neg hf]
          omega
        have hle2 := hminN j hj2
        rw [hcap, if_neg hf] at hle2
        exact hle2
    · rw [htakeN, hc, htake]
      simp
    · intro _
      by_cases hxs : xs = []
      · subst hxs
        rw [hnilN rfl]
        exact hsort
      · exact hsortN hxs

end CMCSortedList

namespace CMCSortedList

set_option linter.unusedSectionVars false

variable {V : Type} [Inhabited V]

/-- Claim C1: `StructurallyEqual` must return `true` for two lists with equal
counts whose sorted elements compare pairwise equal — in particular for a
list and its copy.  The source instead falls through to `return false` after
a fully matching comparison loop: copying the one-element list `[7]` and
comparing yields `false`. -/
theorem sl_equals_always_false_on_match :
    sl_copy_of true true list7 = some copy7 ∧ sl_equals list7 copy7 = some false :=
  ⟨rfl, rfl⟩

/-- Claim C2: `Sort()` is claimed to leave every list sorted.  On the
eleven-element list `[2,...,2,1]` (minimum in the pivot position) the Lomuto
partition ends with `pindex = 0`, the recursive call on `(low, pindex - 1)`
underflows `size_t` to `2^64 - 1`, and the next partition reads
`buffer[2^64 - 1]` — far outside the allocation, so the model reports the
undefined access as `none` instead of a sorted permutation. -/
theorem sl_sort_reads_out_of_bounds : sl_sort badList = none := rfl

/-- Claim C3: on an empty list both index-of directions are claimed to
return the sentinel `count` (which is `0`); the source instead returns the
distinct constant `1`. -/
theorem sl_indexof_empty_returns_one :
    sl_indexof l0Int 7 true = some (1, l0Int)
    ∧ sl_indexof l0Int 7 false = some (1, l0Int)
    ∧ l0Int.count = 0 :=
  ⟨rfl, rfl, rfl⟩

/-- Claim C4: the binary searches are claimed to read only indices in
`[0, count)`.  Searching `3` from the back in `[5]` drives the
last-occurrence search to `L = 0` and the final read `buffer[L - 1]`
underflows to index `2^64 - 1`; searching `5` in the full list `[1]` drives
the first-occurrence search to read `buffer[count]` with `count = capacity`.
Both accesses are outside the allocation, so the model yields `none`. -/
theorem sl_search_reads_out_of_bounds :
    sl_indexof list5 3 false = none ∧ sl_contains list1full 5 = none :=
  ⟨rfl, rfl⟩

/-- Claim C5 (counterexample): `PFX##_new_custom` is claimed to fail when
the behavior table is missing, but the source never checks `f_val` and
returns a list for a `NULL` table. -/
theorem sl_new_custom_accepts_null_ftab :
    (sl_new_custom true true 1 (none : Option (FtabVal Int))).isSome = true := rfl

/-- Claim C5 (amended): `PFX##_new` fails exactly when `capacity < 1`, the
behavior table is missing, or an allocation fails; `PFX##_new_custom` fails
exactly when `capacity < 1` or an allocation fails (a missing behavior table
is not checked); on success both return a list with `count = 0`, the sorted
flag `false` and the status flag `OK`. -/
theorem sl_new_checks_characterization (m c : Bool) (capacity : Nat)
    (fv : Option (FtabVal V)) :
    (sl_new m c capacity fv = none ↔
      (capacity < 1 ∨ fv = none ∨ m = false ∨ c = false))
    ∧ (sl_new_custom m c capacity fv = none ↔
      (capacity < 1 ∨ m = false ∨ c = false))
    ∧ (∀ l : SList V, sl_new m c capacity fv = some l →
        l.count = 0 ∧ l.is_sorted = false ∧ l.flag = cmc_flags_OK)
    ∧ (∀ l : SList V, sl_new_custom m c capacity fv = some l →
        l.count = 0 ∧ l.is_sorted = false ∧ l.flag = cmc_flags_OK) := by
  unfold sl_new sl_new_custom
  rcases m <;> rcases c <;> rcases fv with _ | f <;>
    by_cases hc : capacity < 1 <;>
      simp_all

/-- Claim C5 (witness): a successful construction at capacity 1 has count 0,
a clear sorted flag and status `OK`. -/
theorem sl_new_checks_characterization_witness :
    (sl_new true true 1 (some fInt) = some l0Int)
    ∧ (l0Int.count = 0 ∧ l0Int.is_sorted = false ∧ l0Int.flag = cmc_flags_OK) :=
  ⟨rfl, (sl_new_checks_characterization true true 1 (some fInt)).2.2.1 l0Int rfl⟩

/-- Claim C6: starting from a freshly constructed list of capacity `C0`,
inserting the elements of `xs` succeeds throughout, leaves `count` equal to
the number of inserts, stores the elements in order, clears the sorted flag
when anything was inserted, and leaves the capacity equal to the smallest
`C0 * 2 ^ k` that is at least the number of inserts. -/
theorem sortedlist_insert_growth (C0 : Nat) (fv : FtabVal V) (l0 : SList V) (xs : List V)
    (h0 : sl_new true true C0 (some fv) = some l0) :
    ∃ lN, insertAll l0 xs = some lN
      ∧ lN.count = xs.length
      ∧ (∃ k, lN.capacity = C0 * 2 ^ k)
      ∧ xs.length ≤ lN.capacity
      ∧ (∀ j, xs.length ≤ C0 * 2 ^ j → lN.capacity ≤ C0 * 2 ^ j)
      ∧ lN.buffer.take lN.count = xs
      ∧ (xs ≠ [] → lN.is_sorted = false) := by
  unfold sl_new at h0
  by_cases hC : C0 < 1
  · rw [if_pos hC] at h0
    exact absurd h0 (by simp)
  · rw [if_neg hC] at h0
    simp only [Option.isNone_some, Bool.false_eq_true, Bool.true_eq_false, if_false,
      Option.some.injEq] at h0
    subst h0
    obtain ⟨lN, hall, hcount, hex, hle, hmin, hlen, htake, hnil, hsorted⟩ :=
      insertAll_spec xs
        { buffer := List.replicate C0 default, capacity := C0, count := 0,
          is_sorted := false, flag := cmc_flags_OK, f_val := some fv }
        (by show 1 ≤ C0; omega) (by show 0 ≤ C0; omega)
        (by show (List.replicate C0 (default : V)).length = C0; simp)
    refine ⟨lN, hall, by simpa using hcount, hex, by simpa using hle, ?_, ?_, hsorted⟩
    · intro j hj
      exact hmin j (by simpa using hj)
    · simpa using htake

/-- Claim C6 (witness): inserting `[5, 3, 4]` into a fresh capacity-1 list
gives count 3 and capacity 4 (the smallest doubling of 1 at least 3), with
the elements stored in insertion order. -/
theorem sortedlist_insert_growth_witness :
    (sl_new true true 1 (some fInt) = some l0Int) ∧
    ∃ lN, insertAll l0Int [(5 : Int), 3, 4] = some lN ∧
      lN.count = 3 ∧ 3 ≤ lN.capacity ∧ lN.capacity ≤ 4 ∧
      lN.buffer.take lN.count = [(5 : Int), 3, 4] := by
  refine ⟨rfl, ?_⟩
  obtain ⟨lN, h1, h2, -, h4, h5, h6, -⟩ :=
    sortedlist_insert_growth 1 fInt l0Int [(5 : Int), 3, 4] rfl
  refine ⟨lN, h1, by simpa using h2, by simpa using h4, ?_, h6⟩
  have h7 := h5 2 (by norm_num)
  simpa using h7

/-- Claim C7: `RemoveAt` is claimed to behave as a defined shift on every
list, but on a full list (here capacity 1 holding `[7]`) the `memmove`
source range reaches `buffer[count]` with `count = capacity` — one slot past
the allocation — so the model reports the undefined access as `none`. -/
theorem sl_remove_full_reads_out_of_bounds :
    sl_remove full7 0 = none ∧ 0 < full7.count :=
  ⟨rfl, by decide⟩

/-- Claim C8 (counterexample): a bulk `Advance` is claimed never to land
exactly on the last index and a bulk `Rewind` never exactly on index 0; yet
advancing an iterator at index 0 of a 3-element list by 2 steps succeeds and
lands on index 2 = count - 1, and rewinding from index 2 by 2 steps succeeds
and lands on index 0. -/
theorem sl_iter_advance_lands_on_last_index :
    (sl_iter_advance it3 2).1 = true
    ∧ (sl_iter_advance it3 2).2.cursor = it3.target.count - 1
    ∧ (sl_iter_rewind it3r 2).1 = true
    ∧ (sl_iter_rewind it3r 2).2.cursor = 0 :=
  ⟨rfl, rfl, rfl, rfl⟩

/-- Claim C8 (amended): `Advance(n)` moves (by exactly `n`) precisely when
the `end` flag is clear, the cursor is not already on the last index,
`n ≠ 0` and `cursor + n < count` — so landing exactly on index `count - 1`
is allowed; symmetrically `Rewind(n)` moves precisely when the `start` flag
is clear, the cursor is nonzero, `n ≠ 0` and `n ≤ cursor` — so landing
exactly on index 0 is allowed; a refused call leaves the cursor unchanged. -/
theorem sl_iter_advance_rewind_characterization (iter : SIter V) (steps : Nat) :
    ((sl_iter_advance iter steps).1 = true ↔
      iter.«end» = false ∧ iter.cursor + 1 ≠ iter.target.count ∧ steps ≠ 0 ∧
        iter.cursor + steps < iter.target.count)
    ∧ ((sl_iter_advance iter steps).1 = true →
        (sl_iter_advance iter steps).2.cursor = iter.cursor + steps)
    ∧ ((sl_iter_advance iter steps).1 = false →
        (sl_iter_advance iter steps).2.cursor = iter.cursor)
    ∧ ((sl_iter_rewind iter steps).1 = true ↔
      iter.start = false ∧ iter.cursor ≠ 0 ∧ steps ≠ 0 ∧ steps ≤ iter.cursor)
    ∧ ((sl_iter_rewind iter steps).1 = true →
        (sl_iter_rewind iter steps).2.cursor = iter.cursor - steps)
    ∧ ((sl_iter_rewind iter steps).1 = false →
        (sl_iter_rewind iter steps).2.cursor = iter.cursor) := by
  obtain ⟨t, cur, s, e⟩ := iter
  unfold sl_iter_advance sl_iter_rewind
  rcases e <;> rcases s <;> split_ifs <;> simp_all <;> omega

/-- Claim C8 (witness): the characterization applied to a concrete moving
advance. -/
theorem sl_iter_advance_rewind_characterization_witness :
    (sl_iter_advance it3 2).1 = true
    ∧ (sl_iter_advance it3 2).2.cursor = it3.cursor + 2 :=
  ⟨rfl, (sl_iter_advance_rewind_characterization it3 2).2.1 rfl⟩

/-- Claim C9 (counterexample): after an out-of-range `get` the status flag
is claimed to hold `OUT_OF_RANGE`; in the source `get` never writes the
flag, so an empty list with flag `OK` keeps `OK` (which differs from
`OUT_OF_RANGE`). -/
theorem sl_get_leaves_flag_unchanged_concrete :
    (sl_get egC9 5).map (fun p => p.2.flag) = some cmc_flags_OK
    ∧ cmc_flags_OK ≠ cmc_flags_OUT_OF_RANGE :=
  ⟨rfl, by decide⟩

/-- Claim C9 (amended): `get` with an out-of-range index returns the zero
value and leaves the entire list — its status flag included — unchanged;
no `OUT_OF_RANGE` code is recorded. -/
theorem sl_get_out_of_range (l : SList V) (index : Nat) (h : l.count ≤ index) :
    sl_get l index = some (default, l) := by
  unfold sl_get
  rw [if_pos h]

/-- Claim C9 (witness): the out-of-range `get` theorem at a concrete list
and index. -/
theorem sl_get_out_of_range_witness :
    egC9.count ≤ 5 ∧ sl_get egC9 5 = some ((default : Int), egC9) :=
  ⟨by decide, sl_get_out_of_range egC9 5 (by decide)⟩

/-- Claim C10: a step forward (or bulk advance) from the last index with the
`end` flag clear returns `false`, leaves the cursor unchanged, sets the
`end` flag, and makes at-end report `true`; symmetrically a step backwards
from index 0 with the `start` flag clear returns `false` and sets the
`start` flag. -/
theorem sl_iter_boundary_flags_set (iter : SIter V) (steps : Nat)
    (h1 : iter.«end» = false) (h2 : iter.cursor + 1 = iter.target.count) :
    sl_iter_next iter = (false, { iter with «end» := true })
    ∧ sl_iter_advance iter steps = (false, { iter with «end» := true })
    ∧ sl_iter_at_end (sl_iter_next iter).2 = true
    ∧ ∀ it2 : SIter V, it2.start = false → it2.cursor = 0 →
        sl_iter_prev it2 = (false, { it2 with start := true })
        ∧ sl_iter_at_start (sl_iter_prev it2).2 = true := by
  refine ⟨?_, ?_, ?_, ?_⟩
  · unfold sl_iter_next
    rw [h1]
    simp [h2]
  · unfold sl_iter_advance
    rw [h1]
    simp [h2]
  · unfold sl_iter_next sl_iter_at_end
    rw [h1]
    simp [h2]
  · intro it2 hs hc
    constructor
    · unfold sl_iter_prev
      rw [hs]
      simp [hc]
    · unfold sl_iter_prev sl_iter_at_start
      rw [hs]
      simp [hc]

/-- Claim C10 (witness): the boundary theorem at the concrete iterators on
the last and first index of a 3-element list. -/
theorem sl_iter_boundary_flags_set_witness :
    sl_iter_next itLast = (false, { itLast with «end» := true })
    ∧ sl_iter_prev itFirst = (false, { itFirst with start := true }) :=
  ⟨(sl_iter_boundary_flags_set itLast 1 rfl rfl).1,
   ((sl_iter_boundary_flags_set itLast 1 rfl rfl).2.2.2 itFirst rfl rfl).1⟩

end CMCSortedList
